import Mathlib

/-!
Verification of the Chord DHT node (`chord_node.py`) against its
natural-language specification.  The Python class `ChordNode` is shallowly
embedded: dictionaries become association lists, gRPC calls become oracle
functions passed as parameters (`alive` for `_is_node_alive`, `net` for a
remote `GetSuccessor`, `forward` for a forwarded `FindSuccessor`,
`remotePut` for a forwarded `Put`), and the SHA-1 based `_hash` becomes an
abstract parameter `hash : String -> Nat`, since every property at stake
depends only on the hash values, never on the SHA-1 internals.
-/

namespace Chord

/-- `chord_pb2.NodeInfo`: identifier, address, port. -/
structure NodeInfo where
  id : Nat
  address : String
  port : Nat
deriving DecidableEq

/-- `chord_pb2.DataItem`: key, value, version, timestamp. -/
structure DataItem where
  key : String
  value : String
  version : Nat
  timestamp : Nat
deriving DecidableEq

/-- A Python dict `{key: DataItem}` as an association list in insertion
order (`data_store` and `replica_store`). -/
abbrev StoreMap := List (String × DataItem)

/-- Dict read: `store[key]` / `key in store`. -/
def storeLookup (s : StoreMap) (k : String) : Option DataItem :=
  match s with
  | [] => none
  | (k', v) :: rest => if k' = k then some v else storeLookup rest k

/-- Dict assignment `store[key] = item`: replace in place, else append. -/
def storeInsert (s : StoreMap) (k : String) (v : DataItem) : StoreMap :=
  match s with
  | [] => [(k, v)]
  | (k', v') :: rest => if k' = k then (k, v) :: rest else (k', v') :: storeInsert rest k v

/-- Dict removal `del store[key]`. -/
def storeErase (s : StoreMap) (k : String) : StoreMap :=
  match s with
  | [] => []
  | (k', v') :: rest => if k' = k then rest else (k', v') :: storeErase rest k

/-- `ChordNode._in_range(key, start, end, inclusive)`. -/
def in_range (key start stop : Nat) (inclusive : Bool) : Bool :=
  if start = stop then
    inclusive
  else if start < stop then
    if inclusive then decide (start < key ∧ key ≤ stop)
    else decide (start < key ∧ key < stop)
  else
    if inclusive then decide (key > start ∨ key ≤ stop)
    else decide (key > start ∨ key < stop)

/-- The mutable per-node state of `ChordNode` (statistics counters, which no
claim touches, are omitted). -/
structure NodeState where
  id : Nat
  address : String
  port : Nat
  m : Nat
  max_nodes : Nat
  replication_factor : Nat
  successor : NodeInfo
  predecessor : Option NodeInfo
  finger_table : List (Option NodeInfo)
  successor_list : List NodeInfo
  data_store : StoreMap
  replica_store : StoreMap
  is_initialized : Bool
deriving DecidableEq

/-- `ChordNode._make_node_info(self.id, self.address, self.port)`. -/
def selfNodeInfo (st : NodeState) : NodeInfo :=
  ⟨st.id, st.address, st.port⟩

/-- `ChordNode.__init__`: id is the hash of `address:port`; the node starts
as its own successor, with no predecessor, empty finger table slots, and
`successor_list = [self.successor]`. -/
def initNode (hash : String → Nat) (address : String) (port : Nat)
    (m replication_factor : Nat) : NodeState :=
  let id := hash (address ++ ":" ++ toString port)
  { id := id
    address := address
    port := port
    m := m
    max_nodes := 2 ^ m
    replication_factor := replication_factor
    successor := ⟨id, address, port⟩
    predecessor := none
    finger_table := List.replicate m none
    successor_list := [⟨id, address, port⟩]
    data_store := []
    replica_store := []
    is_initialized := false }

/-- The ownership test used by `Put` and `Get`: with no predecessor the node
is responsible; otherwise `_in_range(key_hash, predecessor.id, self.id,
inclusive=True)`. -/
def isOwner (st : NodeState) (key_hash : Nat) : Bool :=
  match st.predecessor with
  | some p => in_range key_hash p.id st.id true
  | none => true

/-- Result record of `FindSuccessor`: node, path of ids, hop count. -/
structure FSResponse where
  node : NodeInfo
  path : List Nat
  hops : Nat
deriving DecidableEq

/-- One finger-table slot considered by `_closest_preceding_finger`: a
populated slot is returned when its id differs from `self.id`, it lies in
`(self.id, key_id)` exclusive, and the liveness probe succeeds; a dead or
non-qualifying slot is skipped. -/
def candidateFinger (selfId key_id : Nat) (alive : NodeInfo → Bool) :
    Option NodeInfo → Option NodeInfo
  | none => none
  | some f =>
    if f.id ≠ selfId ∧ in_range f.id selfId key_id false = true then
      if alive f then some f else none
    else none

/-- `ChordNode._closest_preceding_finger`: scan the finger table from index
`m-1` down to `0`, then the successor list in order, returning the first
live qualifying node; fall back to a NodeInfo for `self`. -/
def closest_preceding_finger (st : NodeState) (alive : NodeInfo → Bool)
    (key_id : Nat) : NodeInfo :=
  match st.finger_table.reverse.findSome? (candidateFinger st.id key_id alive) with
  | some f => f
  | none =>
    match st.successor_list.findSome?
        (fun s => candidateFinger st.id key_id alive (some s)) with
    | some s => s
    | none => selfNodeInfo st

/-- `ChordNode.FindSuccessor`: reduce `key_id` mod the ring size; answer
locally with the successor when the key lies in `(self.id, successor.id]`
or the closest preceding finger is self; otherwise forward, prepending
`self.id` to the returned path and bumping hops; on a failed forward fall
back to the local answer.  `forward` is the oracle for the remote call
(`none` models a raised RPC exception). -/
def FindSuccessor (st : NodeState) (alive : NodeInfo → Bool)
    (forward : NodeInfo → Option FSResponse) (key_id : Nat) : FSResponse :=
  let kid := key_id % st.max_nodes
  if in_range kid st.id st.successor.id true then
    ⟨st.successor, [st.id], 1⟩
  else
    let next := closest_preceding_finger st alive kid
    if next.id = st.id then
      ⟨st.successor, [st.id], 1⟩
    else
      match forward next with
      | some resp => ⟨resp.node, st.id :: resp.path, resp.hops + 1⟩
      | none => ⟨st.successor, [st.id], 1⟩

/-- `ChordNode.SyncReplica`: unconditionally overwrite the replica-store
entry for `key` with the supplied tuple and respond success. -/
def SyncReplica (st : NodeState) (key value : String)
    (version timestamp : Nat) : NodeState × Bool :=
  ({ st with replica_store :=
      storeInsert st.replica_store key ⟨key, value, version, timestamp⟩ }, true)

/-- `ChordNode.Delete`: a replica delete removes from `replica_store`, a
primary delete removes from `data_store` (its fan-out of replica deletes
goes to other nodes and does not touch local state); the response is
success with "Deleted" iff the key was present in the targeted store,
else failure with "Not found".  No routing is performed: unlike `Put` and
`Get`, the handler takes no lookup or forwarding oracle. -/
def Delete (st : NodeState) (key : String) (is_replica : Bool) :
    NodeState × Bool × String :=
  if is_replica then
    match storeLookup st.replica_store key with
    | some _ =>
        ({ st with replica_store := storeErase st.replica_store key }, true, "Deleted")
    | none => (st, false, "Not found")
  else
    match storeLookup st.data_store key with
    | some _ =>
        ({ st with data_store := storeErase st.data_store key }, true, "Deleted")
    | none => (st, false, "Not found")

/-- Response record of `Put`. -/
structure PutResponse where
  success : Bool
  message : String
  version : Nat
deriving DecidableEq

/-- `ChordNode.Put`: when the node is not the owner and the request is not
a replica write, call `FindSuccessor(key_hash)`; if the returned node
differs from self, forward the request there (`remotePut`, whose error
case models a raised RPC exception) and relay its response, answering
`success=false` with "Routing failed: <cause>" when the forward raises;
otherwise fall through and store locally.  A replica write stores the
supplied version (or 1 if zero) into `replica_store`; a primary write
stores previous version + 1 (or 1 for a fresh key) into `data_store` and
reports the number of replica acknowledgements, which is 0 before the
initialization gate opens (`replicaAcks` is the oracle for the fan-out
`_replicate_put`, which only contacts other nodes). -/
def Put (st : NodeState) (hash : String → Nat) (alive : NodeInfo → Bool)
    (forward : NodeInfo → Option FSResponse)
    (remotePut : NodeInfo → Except String PutResponse)
    (replicaAcks : Nat) (key value : String) (is_replica : Bool)
    (requested_version : Nat) (timestamp : Nat) :
    StoreMap × StoreMap × PutResponse :=
  let key_hash := hash key
  let storeLocally : StoreMap × StoreMap × PutResponse :=
    if is_replica then
      let version := if requested_version > 0 then requested_version else 1
      (st.data_store,
       storeInsert st.replica_store key ⟨key, value, version, timestamp⟩,
       ⟨true, "Replica stored", version⟩)
    else
      let version :=
        match storeLookup st.data_store key with
        | some item => item.version + 1
        | none => 1
      let successful_replicas := if st.is_initialized then replicaAcks else 0
      (storeInsert st.data_store key ⟨key, value, version, timestamp⟩,
       st.replica_store,
       ⟨true, "Stored with " ++ toString successful_replicas ++ " replicas", version⟩)
  if isOwner st key_hash = false ∧ is_replica = false then
    let find_resp := FindSuccessor st alive forward key_hash
    if find_resp.node.id = st.id then
      storeLocally
    else
      match remotePut find_resp.node with
      | Except.ok resp => (st.data_store, st.replica_store, resp)
      | Except.error e =>
          (st.data_store, st.replica_store, ⟨false, "Routing failed: " ++ e, 0⟩)
  else
    storeLocally

/-- Repeated primary `Put`s of the same key against one node: after each
call the node keeps the returned stores; the n-th call writes `vals n`. -/
def putIter (st : NodeState) (hash : String → Nat) (alive : NodeInfo → Bool)
    (forward : NodeInfo → Option FSResponse)
    (remotePut : NodeInfo → Except String PutResponse) (replicaAcks : Nat)
    (key : String) (vals : Nat → String) (timestamp : Nat) : Nat → NodeState
  | 0 => st
  | n + 1 =>
    let st' := putIter st hash alive forward remotePut replicaAcks key vals timestamp n
    let r := Put st' hash alive forward remotePut replicaAcks key (vals n) false 0 timestamp
    { st' with data_store := r.1, replica_store := r.2.1 }

/-- `ChordNode.Notify(n)`: set the predecessor to `n` when it is absent or
`n` lies strictly between it and self; respond success either way.  The
last flag records whether the handler spawns the background
key-redistribution thread towards `n` (the predecessor was updated, an old
one existed, and its id differs from `n.id`).  Note the predecessor is
already `n` by the time that thread runs. -/
def Notify (st : NodeState) (node : NodeInfo) : NodeState × Bool × Bool :=
  let should_update :=
    match st.predecessor with
    | none => true
    | some p => in_range node.id p.id st.id false
  if should_update then
    let spawn :=
      match st.predecessor with
      | some old_predecessor => decide (old_predecessor.id ≠ node.id)
      | none => false
    ({ st with predecessor := some node }, true, spawn)
  else
    (st, true, false)

/-- `ChordNode._redistribute_keys_on_join(new_node)`: the keys picked for
transfer to `new_node` — the primary keys whose hash satisfies
`in_range(hash, predecessor.id, new_node.id, inclusive=True)` against the
predecessor held when the background thread runs; none qualify when the
predecessor is absent.  (`_transfer_keys_batch` then Puts each one to
`new_node` and deletes it locally.) -/
def redistribute_keys_on_join (st : NodeState) (hash : String → Nat)
    (new_node : NodeInfo) : List String :=
  (st.data_store.filter (fun kv =>
    match st.predecessor with
    | some p => in_range (hash kv.1) p.id new_node.id true
    | none => false)).map Prod.fst

/-- `ChordNode.TransferKeys(start_id, end_id, target)`: walk the primary
store in iteration order; each key whose hash satisfies
`in_range(hash, start_id, end_id, inclusive=True)` has its item appended
to the transferred batch and is deleted locally; every other entry stays.
Returns (transferred items, remaining store); the RPC response wraps the
items with success. -/
def TransferKeys (hash : String → Nat) (start_id end_id : Nat) :
    StoreMap → List DataItem × StoreMap
  | [] => ([], [])
  | (k, item) :: rest =>
    let r := TransferKeys hash start_id end_id rest
    if in_range (hash k) start_id end_id true then (item :: r.1, r.2)
    else (r.1, (k, item) :: r.2)

/-- The loop of `ChordNode._build_successor_list`: `fuel` plays
`max_attempts`; a live `current` is appended and its successor queried
(`net`, whose `none` models a raised RPC); a dead `current` is skipped via
its successor when that is unseen, else re-probed; the walk stops on a
full list, a seen id, a failed query, or exhausted fuel. -/
def buildLoop (alive : NodeInfo → Bool) (net : NodeInfo → Option NodeInfo)
    (repl : Nat) : Nat → NodeInfo → List Nat → List NodeInfo → List NodeInfo
  | 0, _, _, successors => successors
  | fuel + 1, current, seen_ids, successors =>
    if successors.length ≥ repl - 1 then successors
    else if current.id ∈ seen_ids then successors
    else if alive current then
      let successors' := successors ++ [current]
      let seen' := current.id :: seen_ids
      match net current with
      | some nxt =>
        if nxt.id ∈ seen' then successors'
        else buildLoop alive net repl fuel nxt seen' successors'
      | none => successors'
    else
      match net current with
      | some nxt =>
        if nxt.id ∈ seen_ids then buildLoop alive net repl fuel current seen_ids successors
        else buildLoop alive net repl fuel nxt seen_ids successors
      | none => successors

/-- `ChordNode._build_successor_list`: empty when the node is its own
successor; else the bounded clockwise walk from the successor, with
`max_attempts = replication_factor * 2` and `seen_ids = {self.id}`. -/
def build_successor_list (st : NodeState) (alive : NodeInfo → Bool)
    (net : NodeInfo → Option NodeInfo) : List NodeInfo :=
  if st.successor.id = st.id then []
  else
    buildLoop alive net st.replication_factor (st.replication_factor * 2)
      st.successor [st.id] []

/-- A freshly constructed single node (its own successor, no predecessor),
used as a concrete input for witnesses. -/
def exSolo : NodeState :=
  initNode (fun _ => 5) "localhost" 5000 32 3

/-- A concrete stored item for witnesses. -/
def exItem : DataItem := ⟨"k", "v", 1, 50⟩

/-- A node holding one primary key and one (different) replica key. -/
def exTwoStores : NodeState :=
  { exSolo with
    data_store := [("k", exItem)]
    replica_store := [("r", ⟨"r", "w", 2, 60⟩)] }

/-- A node that holds "k" only as a replica, not as a primary key. -/
def exReplicaOnly : NodeState :=
  { exSolo with replica_store := [("k", exItem)] }

/-- A hash oracle sending every key to identifier 5. -/
def exHash5 : String → Nat := fun _ => 5

/-- A node (id 20, predecessor id 10, ring of size 32) that has fallen
back to being its own successor while its predecessor pointer survives. -/
def exOrphan : NodeState :=
  { id := 20, address := "localhost", port := 5000, m := 5, max_nodes := 32,
    replication_factor := 3, successor := ⟨20, "localhost", 5000⟩,
    predecessor := some ⟨10, "p", 5001⟩,
    finger_table := List.replicate 5 none, successor_list := [],
    data_store := [], replica_store := [], is_initialized := false }

/-- The same node with a distinct live successor of id 25. -/
def exRouted : NodeState :=
  { exOrphan with
    successor := ⟨25, "s", 5002⟩
    successor_list := [⟨25, "s", 5002⟩] }

/-- A hash oracle sending every key to identifier 25. -/
def exHash25 : String → Nat := fun _ => 25

/-- Node 30 (ring of size 32) with predecessor 10, holding primary key "k"
whose hash is 25 under `exHash25`. -/
def exNotify : NodeState :=
  { id := 30, address := "localhost", port := 5000, m := 5, max_nodes := 32,
    replication_factor := 3, successor := ⟨30, "localhost", 5000⟩,
    predecessor := some ⟨10, "p", 5001⟩,
    finger_table := List.replicate 5 none, successor_list := [],
    data_store := [("k", ⟨"k", "v", 1, 0⟩)], replica_store := [],
    is_initialized := true }

/-- A node of id 20 announcing itself via Notify. -/
def exJoiner : NodeInfo := ⟨20, "n", 5002⟩

/-- A one-entry primary store whose key "a" hashes to 5 under `exHash5`. -/
def exStoreA : StoreMap := [("a", ⟨"a", "x", 1, 0⟩)]

end Chord

namespace Chord

/-- Claim C5: `in_range(x, a, b, inclusive)` returns `inclusive` when
`a = b`; for `a < b` it is `a < x < b` (or `a < x ≤ b` when inclusive); in
the wrap-around case `b < a` it is `x > a ∨ x < b` (or `x > a ∨ x ≤ b`
when inclusive). -/
theorem in_range_spec (x a b : Nat) (inc : Bool) :
    (a = b → in_range x a b inc = inc) ∧
    (a < b → inc = true → (in_range x a b inc = true ↔ a < x ∧ x ≤ b)) ∧
    (a < b → inc = false → (in_range x a b inc = true ↔ a < x ∧ x < b)) ∧
    (b < a → inc = true → (in_range x a b inc = true ↔ x > a ∨ x ≤ b)) ∧
    (b < a → inc = false → (in_range x a b inc = true ↔ x > a ∨ x < b)) := by
  unfold in_range
  refine ⟨?_, ?_, ?_, ?_, ?_⟩ <;> intro h
  · simp [h]
  all_goals intro hinc
  all_goals subst hinc
  all_goals simp [h, Nat.ne_of_lt h, Nat.ne_of_gt h, Nat.not_lt.mpr (Nat.le_of_lt h)]

/-- Witness for C5 at the concrete input `x = 3`, `a = 1`, `b = 5`,
`inclusive = true`. -/
theorem in_range_spec_witness :
    (1 = 5 → in_range 3 1 5 true = true) ∧
    (1 < 5 → true = true → (in_range 3 1 5 true = true ↔ 1 < 3 ∧ 3 ≤ 5)) ∧
    (1 < 5 → true = false → (in_range 3 1 5 true = true ↔ 1 < 3 ∧ 3 < 5)) ∧
    (5 < 1 → true = true → (in_range 3 1 5 true = true ↔ 3 > 1 ∨ 3 ≤ 5)) ∧
    (5 < 1 → true = false → (in_range 3 1 5 true = true ↔ 3 > 1 ∨ 3 < 5)) :=
  in_range_spec 3 1 5 true

/-- Claim C6: `FindSuccessor(key_id)` never raises; whenever the reduced
key id lies in `(self.id, successor.id]` inclusive, or the closest
preceding finger is self, or the forwarding RPC fails, it returns exactly
`{node: successor, path: [self.id], hops: 1}`.  (The embedding is a total
function, so the handler cannot raise; the theorem pins the return value
in the three local/fallback cases.) -/
theorem FindSuccessor_local_cases (st : NodeState) (alive : NodeInfo → Bool)
    (forward : NodeInfo → Option FSResponse) (key_id : Nat)
    (h : in_range (key_id % st.max_nodes) st.id st.successor.id true = true
       ∨ (closest_preceding_finger st alive (key_id % st.max_nodes)).id = st.id
       ∨ forward (closest_preceding_finger st alive (key_id % st.max_nodes)) = none) :
    FindSuccessor st alive forward key_id = ⟨st.successor, [st.id], 1⟩ := by
  unfold FindSuccessor
  by_cases h1 : in_range (key_id % st.max_nodes) st.id st.successor.id true = true
  · simp [h1]
  · rcases h with h | h | h
    · exact absurd h h1
    · simp [h1, h]
    · simp only [h1, if_false, Bool.false_eq_true]
      by_cases h2 : (closest_preceding_finger st alive (key_id % st.max_nodes)).id = st.id
      · simp [h2]
      · simp [h2, h]

/-- Witness for C6: on a fresh single node (successor = self), looking up
key id 3 terminates locally with the successor, path `[self.id]`, one hop. -/
theorem FindSuccessor_local_cases_witness :
    FindSuccessor exSolo (fun _ => false) (fun _ => none) 3
      = ⟨exSolo.successor, [exSolo.id], 1⟩ :=
  FindSuccessor_local_cases exSolo (fun _ => false) (fun _ => none) 3
    (Or.inl (by decide))

theorem storeLookup_insert_self (s : StoreMap) (k : String) (v : DataItem) :
    storeLookup (storeInsert s k v) k = some v := by
  induction s with
  | nil => simp [storeInsert, storeLookup]
  | cons hd tl ih =>
    obtain ⟨a, b⟩ := hd
    by_cases h : a = k <;> simp [storeInsert, storeLookup, h, ih]

theorem storeLookup_insert_ne (s : StoreMap) (k k' : String) (v : DataItem)
    (h : k' ≠ k) : storeLookup (storeInsert s k v) k' = storeLookup s k' := by
  induction s with
  | nil => simp [storeInsert, storeLookup, Ne.symm h]
  | cons hd tl ih =>
    obtain ⟨a, b⟩ := hd
    by_cases h2 : a = k
    · subst h2
      simp [storeInsert, storeLookup, Ne.symm h]
    · simp [storeInsert, storeLookup, h2, ih]

theorem storeInsert_idem (s : StoreMap) (k : String) (v : DataItem) :
    storeInsert (storeInsert s k v) k v = storeInsert s k v := by
  induction s with
  | nil => simp [storeInsert]
  | cons hd tl ih =>
    obtain ⟨a, b⟩ := hd
    by_cases h : a = k <;> simp [storeInsert, h, ih]

theorem storeLookup_eq_none_of_not_mem (s : StoreMap) (k : String)
    (h : k ∉ s.map Prod.fst) : storeLookup s k = none := by
  induction s with
  | nil => rfl
  | cons hd tl ih =>
    obtain ⟨a, b⟩ := hd
    simp only [List.map_cons, List.mem_cons, not_or] at h
    simp [storeLookup, Ne.symm h.1, ih h.2]

theorem storeLookup_erase_self (s : StoreMap) (k : String)
    (hnd : (s.map Prod.fst).Nodup) : storeLookup (storeErase s k) k = none := by
  induction s with
  | nil => rfl
  | cons hd tl ih =>
    obtain ⟨a, b⟩ := hd
    simp only [List.map_cons, List.nodup_cons] at hnd
    by_cases h : a = k
    · subst h
      simpa [storeErase] using storeLookup_eq_none_of_not_mem tl a hnd.1
    · simp [storeErase, storeLookup, h, ih hnd.2]

theorem storeLookup_erase_ne (s : StoreMap) (k k' : String) (h : k' ≠ k) :
    storeLookup (storeErase s k) k' = storeLookup s k' := by
  induction s with
  | nil => rfl
  | cons hd tl ih =>
    obtain ⟨a, b⟩ := hd
    by_cases h2 : a = k
    · subst h2
      simp [storeErase, storeLookup, Ne.symm h]
    · by_cases h3 : a = k'
      · subst h3
        simp [storeErase, storeLookup, h2]
      · simp [storeErase, storeLookup, h2, h3, ih]

/-- Claim C8: `SyncReplica(key, value, version, timestamp)` unconditionally
overwrites `replica_store[key]` with exactly the supplied tuple, touches
nothing else, and responds success; applying the same request twice leaves
the state identical to applying it once. -/
theorem SyncReplica_spec (st : NodeState) (key value : String)
    (version timestamp : Nat) :
    (SyncReplica st key value version timestamp).2 = true ∧
    storeLookup (SyncReplica st key value version timestamp).1.replica_store key
      = some ⟨key, value, version, timestamp⟩ ∧
    (SyncReplica st key value version timestamp).1.data_store = st.data_store ∧
    (∀ k', k' ≠ key →
      storeLookup (SyncReplica st key value version timestamp).1.replica_store k'
        = storeLookup st.replica_store k') ∧
    SyncReplica (SyncReplica st key value version timestamp).1 key value version timestamp
      = SyncReplica st key value version timestamp := by
  refine ⟨rfl, storeLookup_insert_self _ _ _, rfl,
    fun k' h => storeLookup_insert_ne _ _ _ _ h, ?_⟩
  simp [SyncReplica, storeInsert_idem]

/-- Witness for C8: on a node whose replica store holds "r", syncing "k"
leaves the entry for "r" untouched (hypothesis `"r" ≠ "k"` discharged). -/
theorem SyncReplica_spec_witness :
    storeLookup (SyncReplica exTwoStores "k" "v2" 4 100).1.replica_store "r"
      = storeLookup exTwoStores.replica_store "r" :=
  (SyncReplica_spec exTwoStores "k" "v2" 4 100).2.2.2.1 "r" (by decide)

/-- Claim C9: `Delete(key, is_replica)` succeeds iff the key was present in
the targeted store (`replica_store` when `is_replica`, else `data_store`);
it removes the key from that store only, never touches the other store,
and on failure ("Not found") both stores are unchanged. -/
theorem Delete_spec (st : NodeState) (key : String) (is_replica : Bool)
    (hnd : ((if is_replica = true then st.replica_store else st.data_store).map
      Prod.fst).Nodup) :
    (Delete st key is_replica).2.1
      = (storeLookup (if is_replica = true then st.replica_store else st.data_store)
          key).isSome ∧
    (is_replica = true → (Delete st key is_replica).1.data_store = st.data_store) ∧
    (is_replica = false → (Delete st key is_replica).1.replica_store = st.replica_store) ∧
    storeLookup (if is_replica = true then (Delete st key is_replica).1.replica_store
      else (Delete st key is_replica).1.data_store) key = none ∧
    (∀ k', k' ≠ key →
      storeLookup (Delete st key is_replica).1.data_store k'
        = storeLookup st.data_store k' ∧
      storeLookup (Delete st key is_replica).1.replica_store k'
        = storeLookup st.replica_store k') ∧
    ((Delete st key is_replica).2.1 = false →
      (Delete st key is_replica).1 = st ∧
      (Delete st key is_replica).2.2 = "Not found") ∧
    ((Delete st key is_replica).2.1 = true →
      (Delete st key is_replica).2.2 = "Deleted") := by
  cases is_replica with
  | true =>
    simp only [if_true] at hnd ⊢
    cases hl : storeLookup st.replica_store key with
    | none =>
      simp [Delete, hl]
    | some it =>
      refine ⟨by simp [Delete, hl], by simp [Delete, hl], by simp, ?_, ?_, ?_, ?_⟩
      · simpa [Delete, hl] using storeLookup_erase_self st.replica_store key hnd
      · intro k' h
        simp [Delete, hl, storeLookup_erase_ne _ _ _ h]
      · simp [Delete, hl]
      · simp [Delete, hl]
  | false =>
    simp only [Bool.false_eq_true, if_false] at hnd ⊢
    cases hl : storeLookup st.data_store key with
    | none =>
      simp [Delete, hl]
    | some it =>
      refine ⟨by simp [Delete, hl], by simp, by simp [Delete, hl], ?_, ?_, ?_, ?_⟩
      · simpa [Delete, hl] using storeLookup_erase_self st.data_store key hnd
      · intro k' h
        simp [Delete, hl, storeLookup_erase_ne _ _ _ h]
      · simp [Delete, hl]
      · simp [Delete, hl]

/-- Witness for C9: deleting primary key "k" on a node that holds it
succeeds with "Deleted" and leaves the replica store untouched. -/
theorem Delete_spec_witness :
    (Delete exTwoStores "k" false).2.1 = true ∧
    (Delete exTwoStores "k" false).1.replica_store = exTwoStores.replica_store := by
  have h := Delete_spec exTwoStores "k" false (by decide)
  refine ⟨?_, h.2.2.1 rfl⟩
  rw [h.1]
  decide

/-- Claim C10: a primary `Delete` consults only the local stores and is
never routed: whenever the local primary store lacks the key, the response
is failure "Not found" and the state is unchanged, whatever the rest of
the ring holds (the handler takes no routing oracle at all, in contrast
with `Put` and `FindSuccessor`). -/
theorem Delete_primary_local_only (st : NodeState) (key : String)
    (h : storeLookup st.data_store key = none) :
    Delete st key false = (st, false, "Not found") := by
  simp [Delete, h]

/-- Witness for C10: on a node holding "k" only as a replica, a primary
delete of "k" still answers "Not found" and changes nothing. -/
theorem Delete_primary_local_only_witness :
    Delete exReplicaOnly "k" false = (exReplicaOnly, false, "Not found") :=
  Delete_primary_local_only exReplicaOnly "k" rfl

theorem Put_owner_primary (st : NodeState) (hash : String → Nat)
    (alive : NodeInfo → Bool) (forward : NodeInfo → Option FSResponse)
    (remotePut : NodeInfo → Except String PutResponse) (acks : Nat)
    (key value : String) (rv ts : Nat)
    (hown : isOwner st (hash key) = true) :
    Put st hash alive forward remotePut acks key value false rv ts
      = (storeInsert st.data_store key
          ⟨key, value,
            (match storeLookup st.data_store key with
             | some item => item.version + 1
             | none => 1), ts⟩,
         st.replica_store,
         ⟨true,
          "Stored with " ++ toString (if st.is_initialized then acks else 0)
            ++ " replicas",
          (match storeLookup st.data_store key with
           | some item => item.version + 1
           | none => 1)⟩) := by
  cases hl : storeLookup st.data_store key <;> unfold Put <;> simp [hown, hl]

theorem putIter_succ (st : NodeState) (hash : String → Nat)
    (alive : NodeInfo → Bool) (forward : NodeInfo → Option FSResponse)
    (remotePut : NodeInfo → Except String PutResponse) (acks : Nat)
    (key : String) (vals : Nat → String) (ts n : Nat) :
    putIter st hash alive forward remotePut acks key vals ts (n + 1)
      = { putIter st hash alive forward remotePut acks key vals ts n with
          data_store := (Put (putIter st hash alive forward remotePut acks key vals ts n)
            hash alive forward remotePut acks key (vals n) false 0 ts).1
          replica_store := (Put (putIter st hash alive forward remotePut acks key vals ts n)
            hash alive forward remotePut acks key (vals n) false 0 ts).2.1 } := rfl

theorem putIter_isOwner (st : NodeState) (hash : String → Nat)
    (alive : NodeInfo → Bool) (forward : NodeInfo → Option FSResponse)
    (remotePut : NodeInfo → Except String PutResponse) (acks : Nat)
    (key : String) (vals : Nat → String) (ts : Nat) (n x : Nat) :
    isOwner (putIter st hash alive forward remotePut acks key vals ts n) x
      = isOwner st x := by
  induction n with
  | zero => rfl
  | succ n ih => exact ih

theorem putIter_lookup (st : NodeState) (hash : String → Nat)
    (alive : NodeInfo → Bool) (forward : NodeInfo → Option FSResponse)
    (remotePut : NodeInfo → Except String PutResponse) (acks : Nat)
    (key : String) (vals : Nat → String) (ts : Nat)
    (hown : isOwner st (hash key) = true)
    (h0 : storeLookup st.data_store key = none) :
    ∀ n, storeLookup
        (putIter st hash alive forward remotePut acks key vals ts (n + 1)).data_store key
      = some ⟨key, vals n, n + 1, ts⟩ := by
  intro n
  induction n with
  | zero =>
    rw [putIter_succ,
      show putIter st hash alive forward remotePut acks key vals ts 0 = st from rfl,
      Put_owner_primary st hash alive forward remotePut acks key (vals 0) 0 ts hown]
    simp [h0, storeLookup_insert_self]
  | succ n ih =>
    rw [putIter_succ st hash alive forward remotePut acks key vals ts (n + 1),
      Put_owner_primary _ hash alive forward remotePut acks key (vals (n + 1)) 0 ts
        (by rw [putIter_isOwner]; exact hown)]
    simp [ih, storeLookup_insert_self]

/-- Claim C7: on the primary path of `Put` (not a replica write, node is
owner) the stored version is the previous version plus one when the key
exists and 1 otherwise; hence repeated Puts of one key on its owner return
the strictly increasing version sequence 1, 2, 3, …, the stored item
carries the returned version, and each response reports success. -/
theorem Put_version_monotonic (st : NodeState) (hash : String → Nat)
    (alive : NodeInfo → Bool) (forward : NodeInfo → Option FSResponse)
    (remotePut : NodeInfo → Except String PutResponse) (acks : Nat)
    (key : String) (vals : Nat → String) (ts : Nat)
    (hown : isOwner st (hash key) = true)
    (h0 : storeLookup st.data_store key = none) :
    (∀ st' : NodeState, ∀ value : String, ∀ rv : Nat,
      isOwner st' (hash key) = true →
      ((∀ item, storeLookup st'.data_store key = some item →
          (Put st' hash alive forward remotePut acks key value false rv ts).2.2.version
            = item.version + 1) ∧
       (storeLookup st'.data_store key = none →
          (Put st' hash alive forward remotePut acks key value false rv ts).2.2.version = 1) ∧
       storeLookup (Put st' hash alive forward remotePut acks key value false rv ts).1 key
         = some ⟨key, value,
             (Put st' hash alive forward remotePut acks key value false rv ts).2.2.version,
             ts⟩ ∧
       (Put st' hash alive forward remotePut acks key value false rv ts).2.2.success
         = true)) ∧
    (∀ n, (Put (putIter st hash alive forward remotePut acks key vals ts n) hash alive
        forward remotePut acks key (vals n) false 0 ts).2.2.version = n + 1) := by
  constructor
  · intro st' value rv h
    cases hl : storeLookup st'.data_store key with
    | none =>
      rw [Put_owner_primary st' hash alive forward remotePut acks key value rv ts h]
      simp [hl, storeLookup_insert_self]
    | some item =>
      rw [Put_owner_primary st' hash alive forward remotePut acks key value rv ts h]
      simp [hl, storeLookup_insert_self]
  · intro n
    cases n with
    | zero =>
      rw [show putIter st hash alive forward remotePut acks key vals ts 0 = st from rfl,
        Put_owner_primary st hash alive forward remotePut acks key (vals 0) 0 ts hown]
      simp [h0]
    | succ n =>
      rw [Put_owner_primary _ hash alive forward remotePut acks key (vals (n + 1)) 0 ts
        (by rw [putIter_isOwner]; exact hown)]
      simp [putIter_lookup st hash alive forward remotePut acks key vals ts hown h0 n]

/-- Witness for C7: on a fresh single node, the third Put of key "k"
returns version 3. -/
theorem Put_version_monotonic_witness :
    (Put (putIter exSolo exHash5 (fun _ => false) (fun _ => none)
          (fun _ => Except.error "x") 0 "k" (fun _ => "v") 7 2)
        exHash5 (fun _ => false) (fun _ => none) (fun _ => Except.error "x") 0
        "k" "v" false 0 7).2.2.version = 2 + 1 :=
  ((Put_version_monotonic exSolo exHash5 (fun _ => false) (fun _ => none)
      (fun _ => Except.error "x") 0 "k" (fun _ => "v") 7 (by decide) rfl).2 2)

/-- Counterexample to claim C4 as stated: node 20 (ring size 32) has
predecessor 10 and is its own successor; for a key hashing to 5 the node
is not the owner, yet `Put` stores the key in its own primary store with
success, because `FindSuccessor` returned the node itself and no forward
happens. -/
theorem Put_forwarding_cx :
    isOwner exOrphan (exHash5 "k") = false ∧
    (Put exOrphan exHash5 (fun _ => false) (fun _ => none)
        (fun _ => Except.error "down") 0 "k" "v" false 0 7).1
      = [("k", ⟨"k", "v", 1, 7⟩)] ∧
    (Put exOrphan exHash5 (fun _ => false) (fun _ => none)
        (fun _ => Except.error "down") 0 "k" "v" false 0 7).2.2.success = true := by
  decide

/-- Claim C4 (amended): for a non-replica `Put` received by a node that is
not the owner, the node invokes `FindSuccessor(key_hash)`; when the
returned node differs from itself it forwards the Put there and relays
that node's response (stores unchanged), answering success=false with a
message beginning "Routing failed:" when the forward raises; when
`FindSuccessor` returns the node itself, the key is stored in the local
primary store instead of being forwarded. -/
theorem Put_forwarding (st : NodeState) (hash : String → Nat)
    (alive : NodeInfo → Bool) (forward : NodeInfo → Option FSResponse)
    (remotePut : NodeInfo → Except String PutResponse) (acks : Nat)
    (key value : String) (rv ts : Nat)
    (hnotown : isOwner st (hash key) = false) :
    ((FindSuccessor st alive forward (hash key)).node.id ≠ st.id →
      (∀ resp, remotePut (FindSuccessor st alive forward (hash key)).node
          = Except.ok resp →
        Put st hash alive forward remotePut acks key value false rv ts
          = (st.data_store, st.replica_store, resp)) ∧
      (∀ e, remotePut (FindSuccessor st alive forward (hash key)).node
          = Except.error e →
        Put st hash alive forward remotePut acks key value false rv ts
          = (st.data_store, st.replica_store, ⟨false, "Routing failed: " ++ e, 0⟩))) ∧
    ((FindSuccessor st alive forward (hash key)).node.id = st.id →
      Put st hash alive forward remotePut acks key value false rv ts
        = (storeInsert st.data_store key
            ⟨key, value,
              (match storeLookup st.data_store key with
               | some item => item.version + 1
               | none => 1), ts⟩,
           st.replica_store,
           ⟨true,
            "Stored with " ++ toString (if st.is_initialized then acks else 0)
              ++ " replicas",
            (match storeLookup st.data_store key with
             | some item => item.version + 1
             | none => 1)⟩)) := by
  refine ⟨fun hne => ⟨fun resp hok => ?_, fun e herr => ?_⟩, fun heq => ?_⟩
  · unfold Put
    simp [hnotown, hne, hok]
  · unfold Put
    simp [hnotown, hne, herr]
  · cases hl : storeLookup st.data_store key <;> unfold Put <;>
      simp [hnotown, heq, hl]

/-- Witness for C4 (amended): node 20 with successor 25 forwards a
non-owned Put to the node returned by `FindSuccessor` and relays its
response unchanged. -/
theorem Put_forwarding_witness :
    Put exRouted exHash5 (fun _ => true)
        (fun _ => some ⟨⟨25, "s", 5002⟩, [25], 1⟩)
        (fun _ => Except.ok ⟨true, "Stored", 3⟩) 0 "k" "v" false 0 7
      = (exRouted.data_store, exRouted.replica_store, ⟨true, "Stored", 3⟩) :=
  ((Put_forwarding exRouted exHash5 (fun _ => true)
      (fun _ => some ⟨⟨25, "s", 5002⟩, [25], 1⟩)
      (fun _ => Except.ok ⟨true, "Stored", 3⟩) 0 "k" "v" 0 7 (by decide)).1
    (by decide)).1 ⟨true, "Stored", 3⟩ rfl

/-- Claim C1, evaluated at a failing input: node 30 with predecessor 10
accepts Notify from node 20 and spawns the redistribution thread; that
thread, running on the updated state (predecessor already 20), selects key
"k" with hash 25 for transfer to node 20 although 25 is NOT in the claimed
interval `(old_predecessor.id, n.id] = (10, 20]` — indeed the degenerate
test `in_range(hash, 20, 20, inclusive=True)` selects every primary key,
including keys the node still owns. -/
theorem Notify_redistribute_bug :
    (Notify exNotify exJoiner).1.predecessor = some exJoiner ∧
    (Notify exNotify exJoiner).2.2 = true ∧
    redistribute_keys_on_join (Notify exNotify exJoiner).1 exHash25 exJoiner = ["k"] ∧
    in_range (exHash25 "k") 10 20 true = false := by
  decide

/-- Counterexample to claim C2 as stated: key "a" hashes to 5, which lies
in the claimed closed interval `[5, 10]` (it equals the start endpoint),
yet `TransferKeys(5, 10, ...)` neither returns nor removes it, because
`in_range` with `inclusive=True` excludes the start of the interval. -/
theorem TransferKeys_cx :
    exHash5 "a" = 5 ∧ 5 ≤ exHash5 "a" ∧ exHash5 "a" ≤ 10 ∧
    (TransferKeys exHash5 5 10 exStoreA).1 = [] ∧
    (TransferKeys exHash5 5 10 exStoreA).2 = exStoreA := by
  decide

/-- Claim C2 (amended): `TransferKeys(start, end, target)` returns exactly
the DataItems of the primary keys whose hashes satisfy
`in_range(hash, start, end, inclusive=True)` — the half-open modular
interval `(start, end]`, the whole ring when `start = end` — removes
exactly those keys from the primary store, and leaves every other key in
place. -/
theorem TransferKeys_spec (hash : String → Nat) (s e : Nat) (store : StoreMap) :
    (TransferKeys hash s e store).1
      = (store.filter (fun kv => in_range (hash kv.1) s e true)).map Prod.snd ∧
    ∀ k, storeLookup (TransferKeys hash s e store).2 k
        = if in_range (hash k) s e true then none else storeLookup store k := by
  induction store with
  | nil =>
    refine ⟨rfl, fun k => ?_⟩
    cases h : in_range (hash k) s e true <;> simp [TransferKeys, storeLookup, h]
  | cons hd tl ih =>
    obtain ⟨a, b⟩ := hd
    constructor
    · by_cases h : in_range (hash a) s e true = true <;>
        simp [TransferKeys, h, ih.1]
    · intro k
      by_cases h : in_range (hash a) s e true = true
      · by_cases hk : a = k
        · subst hk
          simp [TransferKeys, h, ih.2 a]
        · simp [TransferKeys, h, ih.2 k, storeLookup, hk]
      · by_cases hk : a = k
        · subst hk
          simp [TransferKeys, h, storeLookup]
        · simp [TransferKeys, h, storeLookup, hk, ih.2 k]

/-- Witness for C2 (amended) at `start = 4`, `end = 10`: key "a" with hash
5 is removed from the remaining store. -/
theorem TransferKeys_spec_witness :
    storeLookup (TransferKeys exHash5 4 10 exStoreA).2 "a" = none := by
  rw [(TransferKeys_spec exHash5 4 10 exStoreA).2 "a"]
  decide

theorem buildLoop_spec (alive : NodeInfo → Bool) (net : NodeInfo → Option NodeInfo)
    (repl : Nat) : ∀ (fuel : Nat) (current : NodeInfo) (seen : List Nat)
      (acc : List NodeInfo),
    (acc.map NodeInfo.id).Nodup → (∀ a ∈ acc, a.id ∈ seen) →
    acc.length ≤ repl - 1 →
    ∃ ext, buildLoop alive net repl fuel current seen acc = acc ++ ext ∧
      ((acc ++ ext).map NodeInfo.id).Nodup ∧
      (acc ++ ext).length ≤ repl - 1 ∧
      ∀ a ∈ ext, a.id ∉ seen := by
  intro fuel
  induction fuel with
  | zero =>
    intro current seen acc h1 h2 h3
    exact ⟨[], by simp [buildLoop], by simpa using h1, by simpa using h3, by simp⟩
  | succ fuel ih =>
    intro current seen acc h1 h2 h3
    by_cases hlen : acc.length ≥ repl - 1
    · exact ⟨[], by simp [buildLoop, hlen], by simpa using h1, by simpa using h3,
        by simp⟩
    · by_cases hseen : current.id ∈ seen
      · exact ⟨[], by simp [buildLoop, hlen, hseen], by simpa using h1,
          by simpa using h3, by simp⟩
      · have hlen' : acc.length + 1 ≤ repl - 1 := Nat.lt_of_not_le hlen
        have h1' : ((acc ++ [current]).map NodeInfo.id).Nodup := by
          rw [List.map_append, List.nodup_append]
          refine ⟨h1, List.nodup_singleton _, ?_⟩
          intro x hx
          simp only [List.map_cons, List.map_nil, List.mem_singleton]
          intro hxc
          rcases List.mem_map.mp hx with ⟨a, ha, rfl⟩
          exact hseen (hxc ▸ h2 a ha)
        have hsub : ∀ a ∈ acc ++ [current], a.id ∈ current.id :: seen := by
          intro a ha
          rcases List.mem_append.mp ha with ha | ha
          · exact List.mem_cons_of_mem _ (h2 a ha)
          · simp only [List.mem_singleton] at ha
            subst ha
            exact List.mem_cons_self _ _
        have h3' : (acc ++ [current]).length ≤ repl - 1 := by
          simpa using hlen'
        by_cases halive : alive current = true
        · cases hnet : net current with
          | none =>
            refine ⟨[current], ?_, h1', h3', ?_⟩
            · simp [buildLoop, hlen, hseen, halive, hnet]
            · intro a ha
              simp only [List.mem_singleton] at ha
              subst ha
              exact hseen
          | some nxt =>
            by_cases hnxt : nxt.id ∈ current.id :: seen
            · refine ⟨[current], ?_, h1', h3', ?_⟩
              · simp [buildLoop, hlen, hseen, halive, hnet, hnxt]
              · intro a ha
                simp only [List.mem_singleton] at ha
                subst ha
                exact hseen
            · obtain ⟨ext, heq, hnd, hle, hni⟩ :=
                ih nxt (current.id :: seen) (acc ++ [current]) h1' hsub h3'
              refine ⟨current :: ext, ?_, ?_, ?_, ?_⟩
              · rw [show buildLoop alive net repl (fuel + 1) current seen acc
                    = buildLoop alive net repl fuel nxt (current.id :: seen)
                        (acc ++ [current]) by
                  simp [buildLoop, hlen, hseen, halive, hnet, hnxt]]
                rw [heq, List.append_assoc]
                rfl
              · rw [show acc ++ current :: ext = (acc ++ [current]) ++ ext by
                  rw [List.append_assoc]; rfl]
                exact hnd
              · rw [show acc ++ current :: ext = (acc ++ [current]) ++ ext by
                  rw [List.append_assoc]; rfl]
                exact hle
              · intro a ha
                rcases List.mem_cons.mp ha with rfl | ha
                · exact hseen
                · intro hmem
                  exact hni a ha (List.mem_cons_of_mem _ hmem)
        · cases hnet : net current with
          | none =>
            exact ⟨[], by simp [buildLoop, hlen, hseen, halive, hnet],
              by simpa using h1, by simpa using h3, by simp⟩
          | some nxt =>
            by_cases hnxt : nxt.id ∈ seen
            · obtain ⟨ext, heq, hnd, hle, hni⟩ := ih current seen acc h1 h2 h3
              refine ⟨ext, ?_, hnd, hle, hni⟩
              rw [show buildLoop alive net repl (fuel + 1) current seen acc
                  = buildLoop alive net repl fuel current seen acc by
                simp [buildLoop, hlen, hseen, halive, hnet, hnxt]]
              exact heq
            · obtain ⟨ext, heq, hnd, hle, hni⟩ := ih nxt seen acc h1 h2 h3
              refine ⟨ext, ?_, hnd, hle, hni⟩
              rw [show buildLoop alive net repl (fuel + 1) current seen acc
                  = buildLoop alive net repl fuel nxt seen acc by
                simp [buildLoop, hlen, hseen, halive, hnet, hnxt]]
              exact heq

/-- Counterexample to claim C3 as stated: right after construction the
successor list is `[self.successor]` with `successor = self`, so it
contains the node itself. -/
theorem successor_list_init_cx :
    exSolo.id ∈ exSolo.successor_list.map NodeInfo.id := by
  decide

/-- Claim C3 (amended): every list produced by `_build_successor_list` —
the value assigned during stabilize, join, and the backup-switch branch of
successor-failure handling — has length at most R−1, no duplicate
identifiers, and never contains the node itself; however, at construction
and in the no-live-backup fallback of successor-failure handling the
successor list is set to `[self]`. -/
theorem build_successor_list_invariant (st : NodeState) (alive : NodeInfo → Bool)
    (net : NodeInfo → Option NodeInfo) :
    (build_successor_list st alive net).length ≤ st.replication_factor - 1 ∧
    ((build_successor_list st alive net).map NodeInfo.id).Nodup ∧
    ∀ a ∈ build_successor_list st alive net, a.id ≠ st.id := by
  unfold build_successor_list
  by_cases h : st.successor.id = st.id
  · simp [h]
  · simp only [h, if_false]
    obtain ⟨ext, heq, hnd, hle, hni⟩ := buildLoop_spec alive net
      st.replication_factor (st.replication_factor * 2) st.successor [st.id] []
      (by simp) (by simp) (by simp)
    rw [heq]
    refine ⟨by simpa using hle, by simpa using hnd, ?_⟩
    intro a ha
    have := hni a (by simpa using ha)
    simpa using this

/-- Witness for C3 (amended): on node 20 with successor 25, everything
live but remote successor queries failing, the built list obeys the
length bound. -/
theorem build_successor_list_invariant_witness :
    (build_successor_list exRouted (fun _ => true) (fun _ => none)).length
      ≤ exRouted.replication_factor - 1 :=
  (build_successor_list_invariant exRouted (fun _ => true) (fun _ => none)).1

end Chord
